import Mathlib

set_option maxRecDepth 100000

/-!
Verification of the record normalization, validation and bulk-loading
pipeline of `src/data_processing/processor.py` (class `DataProcessor`),
together with the constants of `src/config/settings.py`.

Modelling conventions:
* Python scalar values are embedded as the inductive type `Value`.
  Finite floats are modelled as rationals (every finite IEEE double is a
  rational and the validator only compares them with integer bounds, so
  order comparisons agree).  `Value.bool` is kept distinct from
  `Value.int`, but the `isinstance` tests are modelled exactly as in
  Python, where `bool` is a subclass of `int`.
* Python dicts are embedded as association lists in insertion order
  (`alistInsert` keeps the position of an existing key and appends a new
  key at the end, exactly like CPython dict assignment).
* The MongoDB collection is external; `insert_many` is modelled by
  `StoreBehavior`: either the call succeeds (acknowledging every
  document) or it raises `PyMongoError` after the store acknowledged
  some number of documents.  `process_batch` never reads that number -
  the `except` branch returns 0 - which is exactly the behaviour under
  scrutiny.
* Error entries appended to `self.validation_errors` by
  `_log_validation_error` are modelled by their classification kind and
  offending field; the reason strings of the source map to the kinds as
  follows: "Missing or null field: f" to `ErrKind.missingField`,
  "Invalid f type: t" to `ErrKind.invalidType`, and "F out of range: v"
  to `ErrKind.outOfRange`.
-/

/-- A Python scalar value as it occurs in a sensor record. -/
inductive Value where
  | str (s : String)
  | int (n : Int)
  | float (q : ℚ)
  | bool (b : Bool)
  | datetime (t : Int)
  | none
deriving DecidableEq

/-- A Python dict in insertion order: one row of sensor data. -/
abbrev Record := List (String × Value)

/-- `k in d` for a Python dict. -/
def alistHas {α : Type} (d : List (String × α)) (k : String) : Bool :=
  d.any (fun kv => kv.1 == k)

/-- `d[k]` (as an `Option`) for a Python dict. -/
def alistLookup {α : Type} (d : List (String × α)) (k : String) : Option α :=
  (d.find? (fun kv => kv.1 == k)).map Prod.snd

/-- `d[k] = v` for a Python dict: an existing key keeps its position and
gets the new value, a new key is appended at the end. -/
def alistInsert {α : Type} (d : List (String × α)) (k : String) (v : α) :
    List (String × α) :=
  if alistHas d k then d.map (fun kv => if kv.1 == k then (k, v) else kv)
  else d ++ [(k, v)]

/-- The key list of a Python dict, in insertion order. -/
def alistKeys {α : Type} (d : List (String × α)) : List String :=
  d.map Prod.fst

/-- `d.update(other)` for Python dicts. -/
def dictUpdate (d other : Record) : Record :=
  other.foldl (fun acc kv => alistInsert acc kv.1 kv.2) d

/-- ASCII lower-casing of one character, as `str.lower` acts on the
ASCII field names of this data set. -/
def lowerChar (c : Char) : Char :=
  if 'A' ≤ c ∧ c ≤ 'Z' then Char.ofNat (c.toNat + 32) else c

/-- `s.lower()` on the ASCII strings used as field names. -/
def lowerStr (s : String) : String :=
  ⟨s.data.map lowerChar⟩

/-- `self.column_mappings` built in `DataProcessor.__init__`
(processor.py lines 54-76), transcribed verbatim, duplicates included. -/
def columnMappings : List (String × List String) :=
  [ ("timestamp",
      ["timestamp", "time", "datetime", "date_time", "ts", "Timestamp",
       "TIME", "DATETIME"]),
    ("device_id",
      ["device_id", "deviceid", "device", "id", "deviceID", "DeviceID",
       "DEVICE_ID", "device_ID", "Device_Id", "DEVICE_ID", "device-id",
       "device.id", "deviceId", "deviceID", "DeviceId", "DEVICEID",
       "device_id_number", "device_number"]),
    ("temperature",
      ["temperature", "temp", "Temperature", "TEMP", "Temperature_C",
       "temp_c"]),
    ("humidity",
      ["humidity", "hum", "Humidity", "HUM", "humidity_percent",
       "humidity_pct"]),
    ("pressure",
      ["pressure", "Pressure", "PRESSURE", "pressure_value",
       "pressure_value_hpa"]),
    ("value1", ["value1", "Value1", "VALUE1", "reading1", "Reading1"]),
    ("value2", ["value2", "Value2", "VALUE2", "reading2", "Reading2"]),
    ("value3", ["value3", "Value3", "VALUE3", "reading3", "Reading3"]),
    ("value4", ["value4", "Value4", "VALUE4", "reading4", "Reading4"]),
    ("location",
      ["location", "Location", "LOCATION", "room", "Room", "ROOM"]) ]

/-- The canonical field names that own an alias list (the keys of
`column_mappings`).  Note that light, sound, motion and battery have no
alias entry. -/
def mappedCanonicalFields : List String :=
  columnMappings.map Prod.fst

/-- The `reverse_mapping` dict rebuilt on every call of
`_normalize_record_fields` (processor.py lines 470-475):
`reverse_mapping[var.lower()] = standard_name` for every variation of
every standard name. -/
def reverseMappingList : List (String × String) :=
  columnMappings.foldl
    (fun acc p => p.2.foldl (fun acc2 var => alistInsert acc2 (lowerStr var) p.1) acc)
    []

/-- `reverse_mapping.get(key)`. -/
def revLookup (k : String) : Option String :=
  alistLookup reverseMappingList k

/-- Loop body of `_normalize_record_fields` (processor.py lines
478-481): a key present in the reverse mapping (after lower-casing) is
rewritten to its standard name, an unrecognized key is dropped. -/
def normStep (acc : Record) (kv : String × Value) : Record :=
  match revLookup (lowerStr kv.1) with
  | some std => alistInsert acc std kv.2
  | Option.none => acc

/-- `DataProcessor._normalize_record_fields` (processor.py lines
467-483). -/
def normalizeRecordFields (data : Record) : Record :=
  data.foldl normStep []

/-- Classification of the `error_reason` strings passed to
`_log_validation_error` by `_validate_fields`. -/
inductive ErrKind where
  | missingField
  | invalidType
  | outOfRange
deriving DecidableEq

/-- `field not in data or data[field] is None` (processor.py line 380). -/
def isNullOrMissing : Option Value → Bool
  | Option.none => true
  | some Value.none => true
  | some _ => false

/-- `isinstance(v, str)`. -/
def isinstStr : Value → Bool
  | Value.str _ => true
  | _ => false

/-- `isinstance(v, (str, datetime))`. -/
def isinstStrOrDatetime : Value → Bool
  | Value.str _ => true
  | Value.datetime _ => true
  | _ => false

/-- `isinstance(v, int)`.  In Python `bool` is a subclass of `int`, so
`True` and `False` pass this test. -/
def isinstInt : Value → Bool
  | Value.int _ => true
  | Value.bool _ => true
  | _ => false

/-- `isinstance(v, (int, float))`; again `bool` passes. -/
def isinstNum : Value → Bool
  | Value.int _ => true
  | Value.float _ => true
  | Value.bool _ => true
  | _ => false

/-- The type expected of a field by `_validate_fields`. -/
inductive PyTy where
  | strTy
  | strOrDatetimeTy
  | numTy
  | intTy
deriving DecidableEq

/-- The `isinstance` test of `_validate_fields` for each expected type. -/
def hasTy (v : Value) : PyTy → Bool
  | PyTy.strTy => isinstStr v
  | PyTy.strOrDatetimeTy => isinstStrOrDatetime v
  | PyTy.numTy => isinstNum v
  | PyTy.intTy => isinstInt v

/-- `float(v)` on a value that already passed `isinstance(v, (int, float))`. -/
def pyFloat : Value → ℚ
  | Value.int n => (n : ℚ)
  | Value.float q => q
  | Value.bool b => if b then 1 else 0
  | _ => 0

/-- `int(v)` on a value that already passed `isinstance(v, int)`
(truncation toward zero on the unreachable float case, as in Python). -/
def pyInt : Value → Int
  | Value.int n => n
  | Value.bool b => if b then 1 else 0
  | Value.float q => q.num.tdiv (q.den : Int)
  | _ => 0

/-- `required_fields` of `_validate_fields` (processor.py lines 377-378),
in source order. -/
def requiredFields : List String :=
  ["timestamp", "device_id", "temperature", "humidity", "pressure", "location"]

/-- The sequence of `isinstance` checks on required fields
(processor.py lines 391-414), in source order. -/
def requiredTypeChecks : List (String × PyTy) :=
  [ ("timestamp", PyTy.strOrDatetimeTy),
    ("device_id", PyTy.strTy),
    ("temperature", PyTy.numTy),
    ("humidity", PyTy.numTy),
    ("pressure", PyTy.numTy),
    ("location", PyTy.strTy) ]

/-- The optional-field type loop of `_validate_fields`
(processor.py lines 417-427), in source order. -/
def optionalTypeChecks : List (String × PyTy) :=
  [ ("light", PyTy.intTy),
    ("sound", PyTy.intTy),
    ("motion", PyTy.intTy),
    ("battery", PyTy.numTy) ]

/-- Stage 1 of `_validate_fields`: the first required field that is
missing or `None`, if any (processor.py lines 379-383). -/
def checkRequired (d : Record) : Option String :=
  requiredFields.find? (fun f => isNullOrMissing (alistLookup d f))

/-- One required-field type check: the field is present (stage 1 ran
first), and its value must satisfy the `isinstance` test. -/
def reqTypeBad (d : Record) (ft : String × PyTy) : Bool :=
  match alistLookup d ft.1 with
  | some v => ! hasTy v ft.2
  | Option.none => false

/-- One optional-field type check: only a present, non-`None` value is
tested (processor.py line 423). -/
def optTypeBad (d : Record) (ft : String × PyTy) : Bool :=
  match alistLookup d ft.1 with
  | some Value.none => false
  | some v => ! hasTy v ft.2
  | Option.none => false

/-- Stage 2 of `_validate_fields`: the first field failing its
`isinstance` check, required fields before optional ones, both in
source order (processor.py lines 391-427). -/
def checkTypes (d : Record) : Option String :=
  match requiredTypeChecks.find? (reqTypeBad d) with
  | some ft => some ft.1
  | Option.none =>
    match optionalTypeChecks.find? (optTypeBad d) with
    | some ft => some ft.1
    | Option.none => Option.none

/-- `not lo <= float(d[f]) <= hi` for a required numeric field
(processor.py lines 430-441). -/
def rangeBadReq (d : Record) (f : String) (lo hi : ℚ) : Bool :=
  match alistLookup d f with
  | some v => ! (lo ≤ pyFloat v && pyFloat v ≤ hi)
  | Option.none => false

/-- `f in d and d[f] is not None and not 0 <= int(d[f])` for light and
sound (processor.py lines 444-451). -/
def rangeBadOptLow (d : Record) (f : String) : Bool :=
  match alistLookup d f with
  | some Value.none => false
  | some v => ! (0 ≤ pyInt v)
  | Option.none => false

/-- `motion in d and d[motion] is not None and not 0 <= int(..) <= 1`
(processor.py line 452). -/
def rangeBadMotion (d : Record) : Bool :=
  match alistLookup d "motion" with
  | some Value.none => false
  | some v => ! (0 ≤ pyInt v && pyInt v ≤ 1)
  | Option.none => false

/-- `battery in d and d[battery] is not None and not 0 <= float(..) <= 100`
(processor.py line 456). -/
def rangeBadBattery (d : Record) : Bool :=
  match alistLookup d "battery" with
  | some Value.none => false
  | some v => ! ((0 : ℚ) ≤ pyFloat v && pyFloat v ≤ 100)
  | Option.none => false

/-- Stage 3 of `_validate_fields`: the first field failing its range
check, in source order (processor.py lines 430-459). -/
def checkRanges (d : Record) : Option String :=
  if rangeBadReq d "temperature" (-50) 50 then some "temperature"
  else if rangeBadReq d "humidity" 0 100 then some "humidity"
  else if rangeBadReq d "pressure" 800 1200 then some "pressure"
  else if rangeBadOptLow d "light" then some "light"
  else if rangeBadOptLow d "sound" then some "sound"
  else if rangeBadMotion d then some "motion"
  else if rangeBadBattery d then some "battery"
  else Option.none

/-- `DataProcessor._validate_fields` (processor.py lines 370-465),
refined to also report the first error entry it logs: presence checks,
then type checks, then range checks, first failure wins.  The
`except` branch of the source is unreachable for the embedded value
type: every `float()`/`int()` conversion and subscript happens after
the corresponding `isinstance`/presence test. -/
def validateFieldsE (d : Record) : Option (ErrKind × String) :=
  match checkRequired d with
  | some f => some (ErrKind.missingField, f)
  | Option.none =>
    match checkTypes d with
    | some f => some (ErrKind.invalidType, f)
    | Option.none =>
      match checkRanges d with
      | some f => some (ErrKind.outOfRange, f)
      | Option.none => Option.none

/-- The boolean returned by `_validate_fields`. -/
def validateFields (d : Record) : Bool :=
  (validateFieldsE d).isNone

/-- `DataProcessor.validate_data` (processor.py lines 275-292): try the
original field names first; on failure normalize and revalidate,
updating the record in place when the second pass succeeds.  Returns
the boolean result together with the (possibly updated) record. -/
def validate_data (data : Record) : Bool × Record :=
  if validateFields data then (true, data)
  else
    let normalizedData := normalizeRecordFields data
    if !normalizedData.isEmpty && validateFields normalizedData then
      (true, dictUpdate data normalizedData)
    else (false, data)

example : normalizeRecordFields [("Temp_C", Value.int 25), ("zzz_unknown", Value.int 1)]
    = [("temperature", Value.int 25)] := by decide

example : validateFields
    [("timestamp", Value.str "2024-01-01"), ("device_id", Value.str "Device_1"),
     ("temperature", Value.float 25), ("humidity", Value.float 50),
     ("pressure", Value.float 1013), ("location", Value.str "Room_A")] = true := by decide

example : validateFieldsE
    [("timestamp", Value.str "2024-01-01"), ("device_id", Value.str "Device_1"),
     ("temperature", Value.float 100), ("humidity", Value.float 50),
     ("pressure", Value.float 1013), ("location", Value.str "Room_A")]
    = some (ErrKind.outOfRange, "temperature") := by decide

example : validateFieldsE [("timestamp", Value.str "2024-01-01")]
    = some (ErrKind.missingField, "device_id") := by decide

/-- `BATCH_SIZE` of settings.py line 27, used by the processor only as
the CSV chunk size. -/
def BATCH_SIZE : Nat := 2000

/-- `MONGODB_INSERT_BATCH_SIZE` of settings.py line 31.  No code in
`DataProcessor` reads this constant: `process_batch` issues a single
`insert_many` for all valid records of a batch. -/
def MONGODB_INSERT_BATCH_SIZE : Nat := 2000

/-- The outcome of `collection.insert_many(valid_records, ordered=False)`
as seen by `process_batch`: either the call returns normally (then
`inserted_ids` lists every submitted document), or it raises
`PyMongoError` after the store acknowledged `acked` documents.  The
source catches the exception and never reads `acked`. -/
inductive StoreBehavior where
  | success
  | failure (acked : Nat)
deriving DecidableEq

/-- The list `valid_records` built by `DataProcessor.process_batch`
(processor.py lines 500-524): every record is normalized, records whose
normalization dropped every key are skipped, the rest are validated by
`_validate_fields`, and each valid record receives a `metadata` entry
(whose run-time value, built from the batch id and the clock, is the
parameter `meta`). -/
def processBatchPipeline (meta : Value) (batch : List Record) : List Record :=
  (((batch.map normalizeRecordFields).filter (fun r => !r.isEmpty)).filter
    validateFields).map (fun r => alistInsert r "metadata" meta)

/-- The error entries appended to `self.validation_errors` while
`process_batch` validates a batch: one entry per normalized record that
fails `_validate_fields`; records whose normalization dropped every key
never reach the validator and produce no entry.  (Thread interleavings
of the worker pool may permute entries of distinct records; the model
fixes batch order.) -/
def processBatchErrors (batch : List Record) : List (ErrKind × String) :=
  ((batch.map normalizeRecordFields).filter (fun r => !r.isEmpty)).filterMap validateFieldsE

/-- The number of `insert_many` calls dispatched by `process_batch`
(processor.py lines 536-545): exactly one when `valid_records` is
non-empty, none otherwise. -/
def processBatchInsertOps (meta : Value) (batch : List Record) : Nat :=
  if (processBatchPipeline meta batch).isEmpty then 0 else 1

/-- The integer returned by `DataProcessor.process_batch` (processor.py
lines 485-545): `len(result.inserted_ids)` when the single `insert_many`
succeeds, 0 when it raises `PyMongoError` (the acknowledged count
carried by the error is discarded), and 0 when there is nothing to
insert. -/
def processBatch (meta : Value) (batch : List Record) (store : StoreBehavior) : Nat :=
  if (processBatchPipeline meta batch).isEmpty then 0
  else
    match store with
    | StoreBehavior.success => (processBatchPipeline meta batch).length
    | StoreBehavior.failure _ => 0

/-- One CSV chunk as consumed by `process_file_in_batches`: the decoded
records, the metadata value `process_batch` will stamp on them, and the
store's behaviour for the chunk's insert. -/
structure ChunkRun where
  meta : Value
  batch : List Record
  store : StoreBehavior

/-- The running counters of `process_file_in_batches`
(processor.py lines 580-650). -/
structure FileStats where
  totalBatches : Nat
  totalRecords : Nat
  processedRecords : Nat
  failedRecords : Nat
deriving DecidableEq

/-- One iteration of the chunk loop of `process_file_in_batches`
(processor.py lines 612-628): `total_records += len(records)`,
`total_batches += 1`, `processed_records += process_batch(records)`,
`failed_records = total_records - processed_records`. -/
def stepFile (fs : FileStats) (cr : ChunkRun) : FileStats :=
  { totalBatches := fs.totalBatches + 1
    totalRecords := fs.totalRecords + cr.batch.length
    processedRecords := fs.processedRecords + processBatch cr.meta cr.batch cr.store
    failedRecords := fs.totalRecords + cr.batch.length
      - (fs.processedRecords + processBatch cr.meta cr.batch cr.store) }

/-- The initial `file_stats` of `process_file_in_batches`. -/
def initFileStats : FileStats :=
  { totalBatches := 0, totalRecords := 0, processedRecords := 0, failedRecords := 0 }

/-- `DataProcessor.process_file_in_batches` (processor.py lines
576-650) over an already-decoded sequence of chunks; the returned dict
is exactly the final counter state. -/
def processFileInBatches (runs : List ChunkRun) : FileStats :=
  runs.foldl stepFile initFileStats

/-- Spec side: a required field is present with a non-null value. -/
def specPresent (d : Record) (f : String) : Prop :=
  ∃ v, alistLookup d f = some v ∧ v ≠ Value.none

/-- Spec side: a required field's value (if any) has the documented
type. -/
def specTypedReq (d : Record) (ft : String × PyTy) : Prop :=
  ∀ v, alistLookup d ft.1 = some v → hasTy v ft.2 = true

/-- Spec side: an optional field's value (if present and non-null) has
the documented type. -/
def specTypedOpt (d : Record) (ft : String × PyTy) : Prop :=
  ∀ v, alistLookup d ft.1 = some v → v ≠ Value.none → hasTy v ft.2 = true

/-- Spec side: every numeric field present in the record lies within
its documented inclusive range: temperature in [-50, 50], humidity in
[0, 100], pressure in [800, 1200], light >= 0, sound >= 0, motion in
{0, 1}, battery in [0, 100]. -/
def specRanged (d : Record) : Prop :=
  (∀ v, alistLookup d "temperature" = some v → (-50 : ℚ) ≤ pyFloat v ∧ pyFloat v ≤ 50) ∧
  (∀ v, alistLookup d "humidity" = some v → (0 : ℚ) ≤ pyFloat v ∧ pyFloat v ≤ 100) ∧
  (∀ v, alistLookup d "pressure" = some v → (800 : ℚ) ≤ pyFloat v ∧ pyFloat v ≤ 1200) ∧
  (∀ v, alistLookup d "light" = some v → v ≠ Value.none → 0 ≤ pyInt v) ∧
  (∀ v, alistLookup d "sound" = some v → v ≠ Value.none → 0 ≤ pyInt v) ∧
  (∀ v, alistLookup d "motion" = some v → v ≠ Value.none → 0 ≤ pyInt v ∧ pyInt v ≤ 1) ∧
  (∀ v, alistLookup d "battery" = some v → v ≠ Value.none →
    (0 : ℚ) ≤ pyFloat v ∧ pyFloat v ≤ 100)

/-- Spec side: all type clauses together. -/
def specTyped (d : Record) : Prop :=
  (∀ ft ∈ requiredTypeChecks, specTypedReq d ft) ∧
  (∀ ft ∈ optionalTypeChecks, specTypedOpt d ft)

/-- Spec side: the full validity predicate of the Record Validator
contract, stated from the specification's words. -/
def specValidRecord (d : Record) : Prop :=
  (∀ f ∈ requiredFields, specPresent d f) ∧ specTyped d ∧ specRanged d

/-- Spec side for the normalizer: step function remembering the value
of the latest key seen so far that is an alias of the canonical field
`c`. -/
def lastStep (c : String) (acc : Option Value) (kv : String × Value) : Option Value :=
  if revLookup (lowerStr kv.1) = some c then some kv.2 else acc

/-- Spec side for the normalizer: the value of the last key of `r`
whose lower-cased name is an alias of the canonical field `c` ("last
alias wins"). -/
def lastAliasValue (r : Record) (c : String) : Option Value :=
  r.foldl (lastStep c) Option.none

/-- The six fields of the implicit boolean-coercion claim: each is
validated with `isinstance(..., int)` or `isinstance(..., (int, float))`
and a range containing 1. -/
def boolCoercibleFields : List String :=
  ["temperature", "humidity", "light", "sound", "motion", "battery"]

/-- A well-formed sensor record with canonical keys, used as a concrete
test vector. -/
def goodRec : Record :=
  [("timestamp", Value.str "2024-01-01"), ("device_id", Value.str "Device_1"),
   ("temperature", Value.float 25), ("humidity", Value.float 50),
   ("pressure", Value.float 1013), ("location", Value.str "Room_A")]

/-- The spec's concrete scenario: a record whose timestamp is the
unparseable string "not-a-date" and whose other fields are valid. -/
def notADateRec : Record :=
  [("timestamp", Value.str "not-a-date"), ("device_id", Value.str "Device_1"),
   ("temperature", Value.float 25), ("humidity", Value.float 50),
   ("pressure", Value.float 1013), ("location", Value.str "Room_A")]

/-- A record using only alias spellings, valid after normalization. -/
def aliasRec : Record :=
  [("TIME", Value.str "2024-01-01"), ("DeviceID", Value.str "Device_1"),
   ("Temp_C", Value.float 25), ("HUM", Value.float 50),
   ("Pressure", Value.float 1013), ("Room", Value.str "Room_A")]

/-- A record none of whose keys appears in the alias table. -/
def unknownColsRec : Record := [("zzz_unknown", Value.int 1)]

/-- A record whose only key is the canonical name `light`, which has no
entry in `column_mappings`. -/
def lightOnlyRec : Record := [("light", Value.int 1)]

/-- A record carrying each of the ten canonical fields that own an
alias list. -/
def canonicalTenRec : Record :=
  [("timestamp", Value.str "2024-01-01"), ("device_id", Value.str "Device_1"),
   ("temperature", Value.float 25), ("humidity", Value.float 50),
   ("pressure", Value.float 1013), ("value1", Value.float 1),
   ("value2", Value.float 2), ("value3", Value.float 3),
   ("value4", Value.float 4), ("location", Value.str "Room_A")]

/-- The spec's bulk-load scenario: a batch of 250 valid records. -/
def batch250 : List Record := List.replicate 250 goodRec

/-- A record with every required field present but a temperature of the
wrong type. -/
def badTypeRec : Record :=
  [("timestamp", Value.str "2024-01-01"), ("device_id", Value.str "Device_1"),
   ("temperature", Value.str "hot"), ("humidity", Value.float 50),
   ("pressure", Value.float 1013), ("location", Value.str "Room_A")]

/-- A record with every required field present and typed but an
out-of-range temperature. -/
def badRangeRec : Record :=
  [("timestamp", Value.str "2024-01-01"), ("device_id", Value.str "Device_1"),
   ("temperature", Value.float 100), ("humidity", Value.float 50),
   ("pressure", Value.float 1013), ("location", Value.str "Room_A")]

/- ------------------------------------------------------------------ -/
/- Theorems.                                                          -/
/- ------------------------------------------------------------------ -/

theorem find_congr {α : Type} {p q : α → Bool} :
    ∀ l : List α, (∀ a ∈ l, p a = q a) → l.find? p = l.find? q := by
  intro l h
  induction l with
  | nil => rfl
  | cons a t ih =>
    have ha := h a (by simp)
    simp only [List.find?, ha]
    cases q a with
    | true => rfl
    | false => exact ih (fun b hb => h b (by simp [hb]))

theorem alistLookup_nil {α : Type} (c : String) :
    alistLookup ([] : List (String × α)) c = Option.none := rfl

theorem alistLookup_cons {α : Type} (a : String × α) (t : List (String × α))
    (c : String) :
    alistLookup (a :: t) c = if a.1 = c then some a.2 else alistLookup t c := by
  by_cases h : a.1 = c
  · rw [if_pos h]
    unfold alistLookup
    rw [List.find?_cons_of_pos _ (by simpa using h)]
    rfl
  · rw [if_neg h]
    unfold alistLookup
    rw [List.find?_cons_of_neg _ (by simpa using h)]

theorem alistHas_cons {α : Type} (a : String × α) (t : List (String × α))
    (k : String) :
    alistHas (a :: t) k = ((a.1 == k) || alistHas t k) := rfl

theorem alistHas_iff_lookup {α : Type} (d : List (String × α)) (k : String) :
    alistHas d k = true ↔ ∃ v, alistLookup d k = some v := by
  induction d with
  | nil => simp [alistHas, alistLookup]
  | cons a t ih =>
    rw [alistHas_cons, alistLookup_cons]
    by_cases h : a.1 = k
    · simp [h]
    · simp only [Bool.or_eq_true, beq_iff_eq, h, false_or, if_neg h]
      exact ih

theorem alistLookup_eq_none_of_not_has {α : Type} (d : List (String × α)) (k : String)
    (h : alistHas d k = false) : alistLookup d k = Option.none := by
  cases hv : alistLookup d k with
  | none => rfl
  | some v =>
    have ht : alistHas d k = true := (alistHas_iff_lookup d k).mpr ⟨v, hv⟩
    rw [ht] at h
    cases h

theorem alistLookup_map_replace_ne {α : Type} (d : List (String × α)) (k c : String)
    (v : α) (hck : c ≠ k) :
    alistLookup (d.map (fun kv => if kv.1 == k then (k, v) else kv)) c
      = alistLookup d c := by
  induction d with
  | nil => rfl
  | cons a t ih =>
    rw [List.map_cons]
    by_cases h1 : a.1 = k
    · have h2 : (if a.1 == k then (k, v) else a) = (k, v) := by simp [h1]
      rw [h2, alistLookup_cons, alistLookup_cons,
        if_neg (show ¬((k, v).1 = c) from Ne.symm hck),
        if_neg (show ¬(a.1 = c) by rw [h1]; exact Ne.symm hck), ih]
    · have h2 : (if a.1 == k then (k, v) else a) = a := by simp [h1]
      rw [h2, alistLookup_cons, alistLookup_cons]
      by_cases h3 : a.1 = c
      · rw [if_pos h3, if_pos h3]
      · rw [if_neg h3, if_neg h3, ih]

theorem alistLookup_map_replace_self {α : Type} (d : List (String × α)) (k : String)
    (v : α) (hmem : alistHas d k = true) :
    alistLookup (d.map (fun kv => if kv.1 == k then (k, v) else kv)) k
      = some v := by
  induction d with
  | nil => simp [alistHas] at hmem
  | cons a t ih =>
    rw [List.map_cons]
    by_cases h1 : a.1 = k
    · have h2 : (if a.1 == k then (k, v) else a) = (k, v) := by simp [h1]
      rw [h2, alistLookup_cons, if_pos rfl]
    · have h2 : (if a.1 == k then (k, v) else a) = a := by simp [h1]
      have hmem' : alistHas t k = true := by
        rw [alistHas_cons] at hmem
        simpa [h1] using hmem
      rw [h2, alistLookup_cons, if_neg h1]
      exact ih hmem'

theorem alistLookup_append {α : Type} (d e : List (String × α)) (c : String) :
    alistLookup (d ++ e) c = (alistLookup d c).or (alistLookup e c) := by
  unfold alistLookup
  rw [List.find?_append]
  cases List.find? (fun kv => kv.1 == c) d <;> rfl

theorem specPresent_iff (d : Record) (f : String) :
    specPresent d f ↔ isNullOrMissing (alistLookup d f) = false := by
  unfold specPresent
  cases hv : alistLookup d f with
  | none => simp [isNullOrMissing]
  | some v => cases v <;> simp [isNullOrMissing]

theorem checkRequired_eq_none (d : Record) :
    checkRequired d = Option.none ↔ ∀ f ∈ requiredFields, specPresent d f := by
  unfold checkRequired
  rw [List.find?_eq_none]
  constructor
  · intro h f hf
    rw [specPresent_iff]
    simpa using h f hf
  · intro h f hf
    have := (specPresent_iff d f).mp (h f hf)
    simp [this]

theorem specTypedReq_iff (d : Record) (ft : String × PyTy) :
    specTypedReq d ft ↔ reqTypeBad d ft = false := by
  unfold specTypedReq reqTypeBad
  cases hv : alistLookup d ft.1 with
  | none => simp
  | some v => simp

theorem specTypedOpt_iff (d : Record) (ft : String × PyTy) :
    specTypedOpt d ft ↔ optTypeBad d ft = false := by
  unfold specTypedOpt optTypeBad
  cases hv : alistLookup d ft.1 with
  | none => simp
  | some v => cases v <;> simp

theorem checkTypes_eq_none (d : Record) :
    checkTypes d = Option.none ↔ specTyped d := by
  unfold checkTypes specTyped
  cases h1 : requiredTypeChecks.find? (reqTypeBad d) with
  | some ft =>
    constructor
    · intro h
      exact Option.noConfusion h
    · rintro ⟨hreq, _⟩
      exfalso
      have hb : reqTypeBad d ft = true := List.find?_some h1
      have hm : ft ∈ requiredTypeChecks := List.mem_of_find?_eq_some h1
      have hf := (specTypedReq_iff d ft).mp (hreq ft hm)
      rw [hf] at hb
      cases hb
  | none =>
    cases h2 : optionalTypeChecks.find? (optTypeBad d) with
    | some ft =>
      constructor
      · intro h
        exact Option.noConfusion h
      · rintro ⟨_, hopt⟩
        exfalso
        have hb : optTypeBad d ft = true := List.find?_some h2
        have hm : ft ∈ optionalTypeChecks := List.mem_of_find?_eq_some h2
        have hf := (specTypedOpt_iff d ft).mp (hopt ft hm)
        rw [hf] at hb
        cases hb
    | none =>
      constructor
      · intro _
        constructor
        · intro ft hft
          rw [specTypedReq_iff]
          simpa using List.find?_eq_none.mp h1 ft hft
        · intro ft hft
          rw [specTypedOpt_iff]
          simpa using List.find?_eq_none.mp h2 ft hft
      · intro _
        rfl

theorem rangeBadReq_iff (d : Record) (f : String) (lo hi : ℚ) :
    rangeBadReq d f lo hi = false ↔
      ∀ v, alistLookup d f = some v → lo ≤ pyFloat v ∧ pyFloat v ≤ hi := by
  unfold rangeBadReq
  cases hv : alistLookup d f with
  | none => simp
  | some v => simp

theorem rangeBadOptLow_iff (d : Record) (f : String) :
    rangeBadOptLow d f = false ↔
      ∀ v, alistLookup d f = some v → v ≠ Value.none → 0 ≤ pyInt v := by
  unfold rangeBadOptLow
  cases hv : alistLookup d f with
  | none => simp
  | some v => cases v <;> simp

theorem rangeBadMotion_iff (d : Record) :
    rangeBadMotion d = false ↔
      ∀ v, alistLookup d "motion" = some v → v ≠ Value.none →
        0 ≤ pyInt v ∧ pyInt v ≤ 1 := by
  unfold rangeBadMotion
  cases hv : alistLookup d "motion" with
  | none => simp
  | some v => cases v <;> simp

theorem rangeBadBattery_iff (d : Record) :
    rangeBadBattery d = false ↔
      ∀ v, alistLookup d "battery" = some v → v ≠ Value.none →
        (0 : ℚ) ≤ pyFloat v ∧ pyFloat v ≤ 100 := by
  unfold rangeBadBattery
  cases hv : alistLookup d "battery" with
  | none => simp
  | some v => cases v <;> simp

theorem checkRanges_eq_none_aux (d : Record) :
    checkRanges d = Option.none ↔
      (rangeBadReq d "temperature" (-50) 50 = false ∧
       rangeBadReq d "humidity" 0 100 = false ∧
       rangeBadReq d "pressure" 800 1200 = false ∧
       rangeBadOptLow d "light" = false ∧
       rangeBadOptLow d "sound" = false ∧
       rangeBadMotion d = false ∧
       rangeBadBattery d = false) := by
  unfold checkRanges
  constructor
  · intro h
    split_ifs at h
    simp_all
  · rintro ⟨h1, h2, h3, h4, h5, h6, h7⟩
    simp [h1, h2, h3, h4, h5, h6, h7]

theorem checkRanges_eq_none (d : Record) :
    checkRanges d = Option.none ↔ specRanged d := by
  rw [checkRanges_eq_none_aux]
  unfold specRanged
  rw [← rangeBadReq_iff d "temperature" (-50) 50, ← rangeBadReq_iff d "humidity" 0 100,
    ← rangeBadReq_iff d "pressure" 800 1200, ← rangeBadOptLow_iff d "light",
    ← rangeBadOptLow_iff d "sound", ← rangeBadMotion_iff d, ← rangeBadBattery_iff d]

theorem validateFieldsE_eq_none (d : Record) :
    validateFieldsE d = Option.none ↔ specValidRecord d := by
  unfold validateFieldsE specValidRecord
  cases h1 : checkRequired d with
  | some f =>
    constructor
    · intro h
      exact Option.noConfusion h
    · rintro ⟨hp, _, _⟩
      have h0 := (checkRequired_eq_none d).mpr hp
      rw [h1] at h0
      exact Option.noConfusion h0
  | none =>
    have hp : ∀ f ∈ requiredFields, specPresent d f := (checkRequired_eq_none d).mp h1
    cases h2 : checkTypes d with
    | some f =>
      constructor
      · intro h
        exact Option.noConfusion h
      · rintro ⟨_, ht, _⟩
        have h0 := (checkTypes_eq_none d).mpr ht
        rw [h2] at h0
        exact Option.noConfusion h0
    | none =>
      have ht : specTyped d := (checkTypes_eq_none d).mp h2
      cases h3 : checkRanges d with
      | some f =>
        constructor
        · intro h
          exact Option.noConfusion h
        · rintro ⟨_, _, hr⟩
          have h0 := (checkRanges_eq_none d).mpr hr
          rw [h3] at h0
          exact Option.noConfusion h0
      | none =>
        constructor
        · intro _
          exact ⟨hp, ht, (checkRanges_eq_none d).mp h3⟩
        · intro _
          rfl

theorem validateFields_iff_spec (d : Record) :
    validateFields d = true ↔ specValidRecord d := by
  unfold validateFields
  rw [Option.isNone_iff_eq_none]
  exact validateFieldsE_eq_none d

theorem validateFieldsE_missing (d : Record)
    (h : ¬ ∀ f ∈ requiredFields, specPresent d f) :
    ∃ f, validateFieldsE d = some (ErrKind.missingField, f) := by
  cases h1 : checkRequired d with
  | none => exact absurd ((checkRequired_eq_none d).mp h1) h
  | some f =>
    refine ⟨f, ?_⟩
    unfold validateFieldsE
    rw [h1]

theorem validateFieldsE_invalidType (d : Record)
    (hp : ∀ f ∈ requiredFields, specPresent d f) (h : ¬ specTyped d) :
    ∃ f, validateFieldsE d = some (ErrKind.invalidType, f) := by
  have h1 : checkRequired d = Option.none := (checkRequired_eq_none d).mpr hp
  cases h2 : checkTypes d with
  | none => exact absurd ((checkTypes_eq_none d).mp h2) h
  | some f =>
    refine ⟨f, ?_⟩
    unfold validateFieldsE
    rw [h1, h2]

theorem validateFieldsE_outOfRange (d : Record)
    (hp : ∀ f ∈ requiredFields, specPresent d f) (ht : specTyped d)
    (h : ¬ specRanged d) :
    ∃ f, validateFieldsE d = some (ErrKind.outOfRange, f) := by
  have h1 : checkRequired d = Option.none := (checkRequired_eq_none d).mpr hp
  have h2 : checkTypes d = Option.none := (checkTypes_eq_none d).mpr ht
  cases h3 : checkRanges d with
  | none => exact absurd ((checkRanges_eq_none d).mp h3) h
  | some f =>
    refine ⟨f, ?_⟩
    unfold validateFieldsE
    rw [h1, h2, h3]

theorem alistLookup_insert {α : Type} (d : List (String × α)) (k c : String) (v : α) :
    alistLookup (alistInsert d k v) c
      = if c = k then some v else alistLookup d c := by
  unfold alistInsert
  by_cases hmem : alistHas d k
  · rw [if_pos hmem]
    by_cases hck : c = k
    · subst hck
      rw [if_pos rfl]
      exact alistLookup_map_replace_self d c v hmem
    · rw [if_neg hck]
      exact alistLookup_map_replace_ne d k c v hck
  · rw [if_neg hmem, alistLookup_append]
    by_cases hck : c = k
    · subst hck
      rw [alistLookup_eq_none_of_not_has d c (by simpa using hmem), if_pos rfl]
      rw [alistLookup_cons, if_pos rfl]
      rfl
    · rw [if_neg hck]
      have h0 : alistLookup [(k, v)] c = Option.none := by
        rw [alistLookup_cons, if_neg (show ¬((k, v).1 = c) from Ne.symm hck)]
        rfl
      rw [h0]
      cases alistLookup d c <;> rfl

theorem alistHas_append {α : Type} (d e : List (String × α)) (k : String) :
    alistHas (d ++ e) k = (alistHas d k || alistHas e k) := by
  unfold alistHas
  exact List.any_append

theorem alistInsert_of_not_has {α : Type} (d : List (String × α)) (k : String) (v : α)
    (h : alistHas d k = false) : alistInsert d k v = d ++ [(k, v)] := by
  unfold alistInsert
  rw [if_neg (by rw [h]; exact Bool.false_ne_true)]

theorem alistKeys_insert_mem {α : Type} (d : List (String × α)) (k : String) (v : α) :
    ∀ k' ∈ alistKeys (alistInsert d k v), k' = k ∨ k' ∈ alistKeys d := by
  intro k' hk'
  unfold alistInsert at hk'
  split at hk'
  · unfold alistKeys at hk' ⊢
    simp only [List.map_map, List.mem_map, Function.comp] at hk'
    obtain ⟨kv, hkv, heq⟩ := hk'
    by_cases h1 : kv.1 = k
    · simp only [h1, beq_self_eq_true, if_true] at heq
      left
      exact heq.symm
    · simp only [beq_iff_eq, h1, if_false] at heq
      right
      exact heq ▸ List.mem_map_of_mem Prod.fst hkv
  · unfold alistKeys at hk' ⊢
    rw [List.map_append] at hk'
    rcases List.mem_append.mp hk' with h | h
    · right
      exact h
    · left
      simpa using h

theorem revLookup_mem_canonical (s c : String) (h : revLookup s = some c) :
    c ∈ mappedCanonicalFields := by
  have hall : ∀ kv ∈ reverseMappingList, kv.2 ∈ mappedCanonicalFields := by decide
  unfold revLookup alistLookup at h
  cases hf : List.find? (fun kv => kv.1 == s) reverseMappingList with
  | none =>
    rw [hf] at h
    cases h
  | some kv =>
    rw [hf] at h
    have hmem := List.mem_of_find?_eq_some hf
    have hsnd : kv.2 = c := by simpa using h
    rw [← hsnd]
    exact hall kv hmem

theorem revLookup_self : ∀ k ∈ mappedCanonicalFields, revLookup (lowerStr k) = some k := by
  decide

theorem normStep_lookup (acc : Record) (a : String × Value) (c : String) :
    alistLookup (normStep acc a) c = lastStep c (alistLookup acc c) a := by
  unfold normStep lastStep
  cases h : revLookup (lowerStr a.1) with
  | none => rw [if_neg (fun heq => Option.noConfusion heq)]
  | some std =>
    rw [alistLookup_insert]
    by_cases hc : c = std
    · subst hc
      rw [if_pos rfl, if_pos rfl]
    · rw [if_neg hc, if_neg (fun heq => hc (Option.some.inj heq).symm)]

theorem normalize_foldl_lookup (r : Record) (c : String) :
    ∀ acc : Record, alistLookup (r.foldl normStep acc) c
      = r.foldl (lastStep c) (alistLookup acc c) := by
  induction r with
  | nil =>
    intro acc
    rfl
  | cons a t ih =>
    intro acc
    rw [List.foldl_cons, List.foldl_cons, ih (normStep acc a), normStep_lookup]

theorem normalize_lookup (r : Record) (c : String) :
    alistLookup (normalizeRecordFields r) c = lastAliasValue r c :=
  normalize_foldl_lookup r c []

theorem normalize_foldl_keys (r : Record) :
    ∀ acc : Record, (∀ k ∈ alistKeys acc, k ∈ mappedCanonicalFields) →
      ∀ k ∈ alistKeys (r.foldl normStep acc), k ∈ mappedCanonicalFields := by
  induction r with
  | nil =>
    intro acc hacc
    exact hacc
  | cons a t ih =>
    intro acc hacc
    rw [List.foldl_cons]
    apply ih
    intro k hk
    unfold normStep at hk
    cases h : revLookup (lowerStr a.1) with
    | none =>
      rw [h] at hk
      exact hacc k hk
    | some std =>
      rw [h] at hk
      rcases alistKeys_insert_mem acc std a.2 k hk with rfl | hmem
      · exact revLookup_mem_canonical _ k h
      · exact hacc k hmem

theorem normalize_keys_canonical (r : Record) :
    ∀ k ∈ alistKeys (normalizeRecordFields r), k ∈ mappedCanonicalFields := by
  unfold normalizeRecordFields
  exact normalize_foldl_keys r [] (by intro k hk; cases hk)

theorem normalize_foldl_id (r : Record) :
    ∀ acc : Record, (alistKeys r).Nodup →
      (∀ k ∈ alistKeys r, k ∈ mappedCanonicalFields) →
      (∀ k ∈ alistKeys r, alistHas acc k = false) →
      r.foldl normStep acc = acc ++ r := by
  induction r with
  | nil =>
    intro acc _ _ _
    simp
  | cons a t ih =>
    intro acc hnd hcan hdisj
    have hka : a.1 ∈ alistKeys (a :: t) := by simp [alistKeys]
    have hkeys : alistKeys (a :: t) = a.1 :: alistKeys t := rfl
    rw [hkeys] at hnd
    have hnotmem : a.1 ∉ alistKeys t := (List.nodup_cons.mp hnd).1
    have hndt : (alistKeys t).Nodup := (List.nodup_cons.mp hnd).2
    rw [List.foldl_cons]
    have hstep : normStep acc a = acc ++ [a] := by
      unfold normStep
      rw [revLookup_self a.1 (hcan _ hka)]
      show alistInsert acc a.1 a.2 = acc ++ [a]
      rw [alistInsert_of_not_has acc a.1 a.2 (hdisj _ hka), Prod.mk.eta]
    rw [hstep]
    rw [ih (acc ++ [a]) hndt ?hcant ?hdisjt]
    case hcant =>
      intro k hk
      exact hcan k (by rw [hkeys]; exact List.mem_cons_of_mem _ hk)
    case hdisjt =>
      intro k hk
      rw [alistHas_append]
      have h1 : alistHas acc k = false :=
        hdisj k (by rw [hkeys]; exact List.mem_cons_of_mem _ hk)
      have h2 : alistHas [a] k = false := by
        unfold alistHas
        simp only [List.any_cons, List.any_nil, Bool.or_false, beq_iff_eq]
        exact decide_eq_false (fun heq => hnotmem (heq ▸ hk))
      rw [h1, h2]
      rfl
    rw [← List.append_cons]

theorem normalize_id_of_canonical (r : Record)
    (hnd : (alistKeys r).Nodup)
    (hcan : ∀ k ∈ alistKeys r, k ∈ mappedCanonicalFields) :
    normalizeRecordFields r = r := by
  unfold normalizeRecordFields
  rw [normalize_foldl_id r [] hnd hcan (by intro k _; rfl)]
  rfl

theorem validateFields_nil : validateFields ([] : Record) = false := by decide

theorem processBatchPipeline_length_le (meta : Value) (batch : List Record) :
    (processBatchPipeline meta batch).length ≤ batch.length := by
  unfold processBatchPipeline
  rw [List.length_map]
  calc (((batch.map normalizeRecordFields).filter (fun r => !r.isEmpty)).filter
          validateFields).length
      ≤ ((batch.map normalizeRecordFields).filter (fun r => !r.isEmpty)).length :=
        List.length_filter_le _ _
    _ ≤ (batch.map normalizeRecordFields).length := List.length_filter_le _ _
    _ = batch.length := List.length_map _ _

theorem processBatch_failure (meta : Value) (batch : List Record) (k : Nat) :
    processBatch meta batch (StoreBehavior.failure k) = 0 := by
  unfold processBatch
  by_cases h : (processBatchPipeline meta batch).isEmpty
  · rw [if_pos h]
  · rw [if_neg h]

theorem processBatch_success (meta : Value) (batch : List Record) :
    processBatch meta batch StoreBehavior.success
      = (processBatchPipeline meta batch).length := by
  unfold processBatch
  by_cases h : (processBatchPipeline meta batch).isEmpty
  · rw [if_pos h, List.isEmpty_iff.mp h]
    rfl
  · rw [if_neg h]

theorem processBatch_le (meta : Value) (batch : List Record) (store : StoreBehavior) :
    processBatch meta batch store ≤ batch.length := by
  cases store with
  | success =>
    rw [processBatch_success]
    exact processBatchPipeline_length_le meta batch
  | failure k =>
    rw [processBatch_failure]
    exact Nat.zero_le _

theorem fileStats_foldl_invariant (runs : List ChunkRun) :
    ∀ fs : FileStats, fs.processedRecords ≤ fs.totalRecords →
      fs.failedRecords = fs.totalRecords - fs.processedRecords →
      (runs.foldl stepFile fs).processedRecords ≤ (runs.foldl stepFile fs).totalRecords ∧
      (runs.foldl stepFile fs).failedRecords
        = (runs.foldl stepFile fs).totalRecords - (runs.foldl stepFile fs).processedRecords := by
  induction runs with
  | nil =>
    intro fs h1 h2
    exact ⟨h1, h2⟩
  | cons cr t ih =>
    intro fs h1 h2
    rw [List.foldl_cons]
    apply ih
    · have hle := processBatch_le cr.meta cr.batch cr.store
      unfold stepFile
      dsimp only
      omega
    · rfl

theorem pipeline_singleton (meta : Value) (r : Record)
    (h1 : normalizeRecordFields r = r) (h2 : r.isEmpty = false)
    (h3 : validateFields r = true) :
    processBatchPipeline meta [r] = [alistInsert r "metadata" meta] := by
  unfold processBatchPipeline
  simp [h1, h2, h3]

theorem processBatchPipeline_cons_dropped (meta : Value) (r : Record)
    (hr : normalizeRecordFields r = []) (rest : List Record) :
    processBatchPipeline meta (r :: rest) = processBatchPipeline meta rest := by
  unfold processBatchPipeline
  rw [List.map_cons, hr, List.filter_cons_of_neg (by decide)]

theorem processBatchErrors_cons_dropped (r : Record)
    (hr : normalizeRecordFields r = []) (rest : List Record) :
    processBatchErrors (r :: rest) = processBatchErrors rest := by
  unfold processBatchErrors
  rw [List.map_cons, hr, List.filter_cons_of_neg (by decide)]

theorem validate_data_eq (data : Record) :
    ((validate_data data).1 = true ↔
      (validateFields data = true ∨
       validateFields (normalizeRecordFields data) = true)) ∧
    (validateFields data = true → validate_data data = (true, data)) ∧
    (validateFields data = false → validateFields (normalizeRecordFields data) = true →
      validate_data data = (true, dictUpdate data (normalizeRecordFields data))) ∧
    (validateFields data = false → validateFields (normalizeRecordFields data) = false →
      validate_data data = (false, data)) := by
  unfold validate_data
  by_cases h1 : validateFields data
  · rw [if_pos h1]
    refine ⟨by simp [h1], fun _ => rfl, ?_, ?_⟩
    · intro hc _
      rw [h1] at hc
      cases hc
    · intro hc _
      rw [h1] at hc
      cases hc
  · rw [if_neg h1]
    have h1f : validateFields data = false := by
      cases hb : validateFields data
      · rfl
      · exact absurd hb h1
    by_cases h2 : validateFields (normalizeRecordFields data)
    · have hne : (normalizeRecordFields data).isEmpty = false := by
        cases hnd : normalizeRecordFields data with
        | nil =>
          rw [hnd] at h2
          rw [validateFields_nil] at h2
          cases h2
        | cons a t => rfl
      rw [if_pos (by rw [hne, h2]; rfl)]
      refine ⟨by simp [h2], ?_, fun _ _ => rfl, ?_⟩
      · intro hc
        exact absurd hc h1
      · intro _ hc
        rw [h2] at hc
        cases hc
    · have h2f : validateFields (normalizeRecordFields data) = false := by
        cases hb : validateFields (normalizeRecordFields data)
        · rfl
        · exact absurd hb h2
      rw [if_neg (by rw [h2f]; simp)]
      refine ⟨by simp [h1f, h2f], ?_, ?_, fun _ _ => rfl⟩
      · intro hc
        exact absurd hc h1
      · intro _ hc
        exact absurd hc h2

theorem pipeline_batch250 (meta : Value) :
    processBatchPipeline meta batch250
      = List.replicate 250 (alistInsert goodRec "metadata" meta) := by
  have h1 : normalizeRecordFields goodRec = goodRec := by decide
  have h3 : validateFields goodRec = true := by decide
  unfold processBatchPipeline batch250
  rw [List.map_replicate, h1,
    List.filter_replicate_of_pos (by decide), List.filter_replicate_of_pos h3,
    List.map_replicate]

theorem bool_true_insert_valid (data : Record) (f : String)
    (hf : f ∈ boolCoercibleFields) (hv : validateFields data = true) :
    validateFields (alistInsert data f (Value.bool true)) = true := by
  rw [validateFields_iff_spec] at hv ⊢
  unfold specValidRecord specTyped specTypedReq specTypedOpt specRanged at hv ⊢
  obtain ⟨hp, ⟨htr, hto⟩, hr1, hr2, hr3, hr4, hr5, hr6, hr7⟩ := hv
  have hty : ∀ ft ∈ requiredTypeChecks ++ optionalTypeChecks,
      ft.1 ∈ boolCoercibleFields → hasTy (Value.bool true) ft.2 = true := by decide
  refine ⟨?_, ⟨?_, ?_⟩, ?_, ?_, ?_, ?_, ?_, ?_, ?_⟩
  · intro g hg
    rw [specPresent_iff, alistLookup_insert]
    by_cases hgf : g = f
    · rw [if_pos hgf]
      rfl
    · rw [if_neg hgf]
      exact (specPresent_iff data g).mp (hp g hg)
  · intro ft hft v hvl
    rw [alistLookup_insert] at hvl
    by_cases hgf : ft.1 = f
    · rw [if_pos hgf] at hvl
      cases hvl
      exact hty ft (List.mem_append_left _ hft) (hgf.symm ▸ hf)
    · rw [if_neg hgf] at hvl
      exact htr ft hft v hvl
  · intro ft hft v hvl hvne
    rw [alistLookup_insert] at hvl
    by_cases hgf : ft.1 = f
    · rw [if_pos hgf] at hvl
      cases hvl
      exact hty ft (List.mem_append_right _ hft) (hgf.symm ▸ hf)
    · rw [if_neg hgf] at hvl
      exact hto ft hft v hvl hvne
  · intro v hvl
    rw [alistLookup_insert] at hvl
    by_cases hgf : "temperature" = f
    · rw [if_pos hgf] at hvl
      cases hvl
      exact (by decide :
        (-50 : ℚ) ≤ pyFloat (Value.bool true) ∧ pyFloat (Value.bool true) ≤ 50)
    · rw [if_neg hgf] at hvl
      exact hr1 v hvl
  · intro v hvl
    rw [alistLookup_insert] at hvl
    by_cases hgf : "humidity" = f
    · rw [if_pos hgf] at hvl
      cases hvl
      exact (by decide :
        (0 : ℚ) ≤ pyFloat (Value.bool true) ∧ pyFloat (Value.bool true) ≤ 100)
    · rw [if_neg hgf] at hvl
      exact hr2 v hvl
  · intro v hvl
    rw [alistLookup_insert] at hvl
    by_cases hgf : "pressure" = f
    · exact absurd (hgf.symm ▸ hf) (by decide)
    · rw [if_neg hgf] at hvl
      exact hr3 v hvl
  · intro v hvl hvne
    rw [alistLookup_insert] at hvl
    by_cases hgf : "light" = f
    · rw [if_pos hgf] at hvl
      cases hvl
      exact (by decide : (0 : Int) ≤ pyInt (Value.bool true))
    · rw [if_neg hgf] at hvl
      exact hr4 v hvl hvne
  · intro v hvl hvne
    rw [alistLookup_insert] at hvl
    by_cases hgf : "sound" = f
    · rw [if_pos hgf] at hvl
      cases hvl
      exact (by decide : (0 : Int) ≤ pyInt (Value.bool true))
    · rw [if_neg hgf] at hvl
      exact hr5 v hvl hvne
  · intro v hvl hvne
    rw [alistLookup_insert] at hvl
    by_cases hgf : "motion" = f
    · rw [if_pos hgf] at hvl
      cases hvl
      exact (by decide :
        (0 : Int) ≤ pyInt (Value.bool true) ∧ pyInt (Value.bool true) ≤ 1)
    · rw [if_neg hgf] at hvl
      exact hr6 v hvl hvne
  · intro v hvl hvne
    rw [alistLookup_insert] at hvl
    by_cases hgf : "battery" = f
    · rw [if_pos hgf] at hvl
      cases hvl
      exact (by decide :
        (0 : ℚ) ≤ pyFloat (Value.bool true) ∧ pyFloat (Value.bool true) ≤ 100)
    · rw [if_neg hgf] at hvl
      exact hr7 v hvl hvne

/-- Claim C1, counterexample: with one valid record and a store error
raised after the store acknowledged 1 document, `process_batch` returns
0, not the acknowledged count 1 - partial success is thrown away. -/
theorem process_batch_store_error_counterexample :
    processBatch (Value.str "batch") [goodRec] (StoreBehavior.failure 1) = 0 ∧
    (0 : Nat) ≠ 1 :=
  ⟨by decide, by decide⟩

/-- Claim C1, amended: when the bulk insert reports a store error,
`process_batch` credits 0 to the processed total whatever the store
acknowledged; the acknowledged count is credited only when the whole
`insert_many` call succeeds, and the credited count never exceeds the
batch size. -/
theorem process_batch_store_error_returns_zero (meta : Value) (batch : List Record)
    (k : Nat) :
    processBatch meta batch (StoreBehavior.failure k) = 0 ∧
    processBatch meta batch StoreBehavior.success
      = (processBatchPipeline meta batch).length ∧
    processBatch meta batch StoreBehavior.success ≤ batch.length :=
  ⟨processBatch_failure meta batch k, processBatch_success meta batch,
    processBatch_le meta batch StoreBehavior.success⟩

/-- Claim C2: for every completed run over any sequence of chunks with
any mix of valid and invalid records and any store behaviour, the final
statistics of `process_file_in_batches` satisfy
failed_records = total_records - processed_records (as integers). -/
theorem process_file_failed_records_invariant (runs : List ChunkRun) :
    ((processFileInBatches runs).failedRecords : Int)
      = ((processFileInBatches runs).totalRecords : Int)
        - ((processFileInBatches runs).processedRecords : Int) := by
  obtain ⟨h1, h2⟩ := fileStats_foldl_invariant runs initFileStats (Nat.le_refl 0) rfl
  unfold processFileInBatches
  omega

/-- Claim C3: `_validate_fields` passes exactly the records whose
required fields are present and non-null, typed as documented
(`isinstance` semantics, range-checked as documented); a missing
required field yields a missing-field error entry, a wrongly typed
field (all required present) an invalid-type entry, and an
out-of-range numeric field (all present and typed) an
out-of-range entry. -/
theorem validator_documented_rules (d : Record) :
    (validateFields d = true ↔ specValidRecord d) ∧
    (¬ (∀ f ∈ requiredFields, specPresent d f) →
      ∃ f, validateFieldsE d = some (ErrKind.missingField, f)) ∧
    ((∀ f ∈ requiredFields, specPresent d f) → ¬ specTyped d →
      ∃ f, validateFieldsE d = some (ErrKind.invalidType, f)) ∧
    ((∀ f ∈ requiredFields, specPresent d f) → specTyped d → ¬ specRanged d →
      ∃ f, validateFieldsE d = some (ErrKind.outOfRange, f)) :=
  ⟨validateFields_iff_spec d, validateFieldsE_missing d,
    validateFieldsE_invalidType d, validateFieldsE_outOfRange d⟩

/-- Claim C3, witness: the four parts of `validator_documented_rules`
evaluated at concrete records - a fully valid record, the empty record,
a wrongly typed record and an out-of-range record. -/
theorem validator_documented_rules_witness :
    specValidRecord goodRec ∧
    (∃ f, validateFieldsE ([] : Record) = some (ErrKind.missingField, f)) ∧
    (∃ f, validateFieldsE badTypeRec = some (ErrKind.invalidType, f)) ∧
    (∃ f, validateFieldsE badRangeRec = some (ErrKind.outOfRange, f)) := by
  have hpresBT : ∀ g ∈ requiredFields, specPresent badTypeRec g := by
    intro g hg
    rw [specPresent_iff]
    exact (by decide :
      ∀ g ∈ requiredFields, isNullOrMissing (alistLookup badTypeRec g) = false) g hg
  have hpresBR : ∀ g ∈ requiredFields, specPresent badRangeRec g := by
    intro g hg
    rw [specPresent_iff]
    exact (by decide :
      ∀ g ∈ requiredFields, isNullOrMissing (alistLookup badRangeRec g) = false) g hg
  have htyBR : specTyped badRangeRec := by
    constructor
    · intro ft hft
      rw [specTypedReq_iff]
      exact (by decide :
        ∀ ft ∈ requiredTypeChecks, reqTypeBad badRangeRec ft = false) ft hft
    · intro ft hft
      rw [specTypedOpt_iff]
      exact (by decide :
        ∀ ft ∈ optionalTypeChecks, optTypeBad badRangeRec ft = false) ft hft
  refine ⟨?_, ?_, ?_, ?_⟩
  · exact (validator_documented_rules goodRec).1.mp (by decide)
  · exact (validator_documented_rules []).2.1
      (fun hall =>
        absurd ((specPresent_iff [] "timestamp").mp (hall "timestamp" (by decide)))
          (by decide))
  · exact (validator_documented_rules badTypeRec).2.2.1 hpresBT
      (fun hty =>
        absurd ((specTypedReq_iff badTypeRec ("temperature", PyTy.numTy)).mp
          (hty.1 ("temperature", PyTy.numTy) (by decide))) (by decide))
  · exact (validator_documented_rules badRangeRec).2.2.2 hpresBR htyBR
      (fun hrg => absurd (hrg.1 (Value.float 100) (by decide)) (by decide))

/-- Claim C4, counterexample: a record whose timestamp is the
unparseable string "not-a-date" passes validation, is placed in the
insertable set of its batch, and no error entry is produced for it -
there is no coercion stage dropping it. -/
theorem timestamp_coercion_counterexample :
    validateFields notADateRec = true ∧
    processBatchPipeline (Value.str "batch") [notADateRec]
      = [alistInsert notADateRec "metadata" (Value.str "batch")] ∧
    processBatchErrors [notADateRec] = [] :=
  ⟨by decide, by decide, by decide⟩

/-- Claim C4, amended: a record with an unparseable string timestamp
passes validation as a string and is included in the insertable set
with no error entry; no timestamp-coercion stage exists in
`process_batch`.  Such a record is only lost when the store rejects the
insert of its batch, in which case `process_batch` returns 0 and the
whole batch counts as failed. -/
theorem unparseable_timestamp_in_insertable_set (meta : Value) (k : Nat) :
    validateFields notADateRec = true ∧
    processBatchPipeline meta [notADateRec]
      = [alistInsert notADateRec "metadata" meta] ∧
    processBatchErrors [notADateRec] = [] ∧
    processBatch meta [notADateRec] (StoreBehavior.failure k) = 0 :=
  ⟨by decide,
    pipeline_singleton meta notADateRec (by decide) (by decide) (by decide),
    by decide, processBatch_failure meta [notADateRec] k⟩

/-- Claim C5, counterexample: over 250 valid records, `process_batch`
dispatches exactly 1 insert operation, not 3, and when that operation
fails the returned count is 0, not 150. -/
theorem insert_subbatching_counterexample :
    processBatchInsertOps (Value.str "batch") batch250 = 1 ∧ (1 : Nat) ≠ 3 ∧
    processBatch (Value.str "batch") batch250 (StoreBehavior.failure 150) = 0 ∧
    (0 : Nat) ≠ 150 := by
  refine ⟨?_, by decide, processBatch_failure _ _ _, by decide⟩
  unfold processBatchInsertOps
  rw [pipeline_batch250, if_neg (by simp)]

/-- Claim C5, amended: `process_batch` performs no insert
sub-batching: it dispatches at most one `insert_many` operation per
batch (one when valid records exist, none otherwise), ignoring the
configured insert batch size; over 250 valid records it dispatches
exactly 1 operation, credits 250 on success and 0 on a store error. -/
theorem single_insert_operation :
    (∀ meta batch, processBatchInsertOps meta batch ≤ 1) ∧
    (∀ meta : Value,
      processBatchInsertOps meta batch250 = 1 ∧
      processBatch meta batch250 StoreBehavior.success = 250 ∧
      ∀ k, processBatch meta batch250 (StoreBehavior.failure k) = 0) := by
  constructor
  · intro meta batch
    unfold processBatchInsertOps
    by_cases h : (processBatchPipeline meta batch).isEmpty
    · rw [if_pos h]
      exact Nat.zero_le 1
    · rw [if_neg h]
  · intro meta
    refine ⟨?_, ?_, fun k => processBatch_failure meta batch250 k⟩
    · unfold processBatchInsertOps
      rw [pipeline_batch250, if_neg (by simp)]
    · rw [processBatch_success, pipeline_batch250, List.length_replicate]

/-- Claim C6, counterexample: the key `light` is a canonical field name
but has no entry in the alias table, so normalizing a record with this
single key yields the empty record, not the record itself -
normalization is not the identity on it. -/
theorem normalize_idempotence_counterexample :
    normalizeRecordFields lightOnlyRec = [] ∧ ([] : Record) ≠ lightOnlyRec :=
  ⟨by decide, by decide⟩

/-- Claim C6, amended: normalization is the identity on every record
(with distinct keys) all of whose keys are among the ten canonical
names that own an alias list - timestamp, device_id, temperature,
humidity, pressure, value1..value4, location; the canonical names
light, sound, motion and battery are absent from the alias table and
are dropped instead. -/
theorem normalize_identity_on_mapped_canonicals (r : Record)
    (hnd : (alistKeys r).Nodup)
    (hcan : ∀ k ∈ alistKeys r, k ∈ mappedCanonicalFields) :
    normalizeRecordFields r = r :=
  normalize_id_of_canonical r hnd hcan

/-- Claim C6, witness: the identity holds on a concrete record carrying
all ten mapped canonical fields. -/
theorem normalize_identity_on_mapped_canonicals_witness :
    normalizeRecordFields canonicalTenRec = canonicalTenRec :=
  normalize_identity_on_mapped_canonicals canonicalTenRec (by decide) (by decide)

/-- Claim C7, counterexample: a record none of whose keys is in the
alias table normalizes to the empty record and is skipped silently by
`process_batch`: no error entry of any kind is appended for it. -/
theorem normalization_failed_entry_counterexample :
    normalizeRecordFields unknownColsRec = [] ∧
    processBatchErrors [unknownColsRec] = [] ∧
    processBatchPipeline (Value.str "batch") [unknownColsRec] = [] :=
  ⟨by decide, by decide, by decide⟩

/-- Claim C7, amended: a record whose normalization drops every key is
excluded from the batch silently - it produces no error entry and no
insertable record; only the per-batch normalized counter reflects it. -/
theorem dropped_record_no_error_entry (meta : Value) (r : Record)
    (hr : normalizeRecordFields r = []) (rest : List Record) :
    processBatchErrors (r :: rest) = processBatchErrors rest ∧
    processBatchPipeline meta (r :: rest) = processBatchPipeline meta rest :=
  ⟨processBatchErrors_cons_dropped r hr rest,
    processBatchPipeline_cons_dropped meta r hr rest⟩

/-- Claim C7, witness: the silent drop evaluated on the concrete
all-unknown-columns record. -/
theorem dropped_record_no_error_entry_witness :
    processBatchErrors [unknownColsRec] = processBatchErrors [] ∧
    processBatchPipeline (Value.str "batch") [unknownColsRec]
      = processBatchPipeline (Value.str "batch") [] :=
  dropped_record_no_error_entry (Value.str "batch") unknownColsRec (by decide) []

/-- Claim C8: `validate_data` returns true exactly when the record
passes canonical-field validation either as-is or after field-name
normalization; it leaves the record untouched when the first pass
succeeds, updates it in place with the normalized keys and values when
only the second pass succeeds, and leaves it untouched when both
fail. -/
theorem validate_data_two_pass (data : Record) :
    ((validate_data data).1 = true ↔
      (validateFields data = true ∨
       validateFields (normalizeRecordFields data) = true)) ∧
    (validateFields data = true → validate_data data = (true, data)) ∧
    (validateFields data = false → validateFields (normalizeRecordFields data) = true →
      validate_data data = (true, dictUpdate data (normalizeRecordFields data))) ∧
    (validateFields data = false → validateFields (normalizeRecordFields data) = false →
      validate_data data = (false, data)) :=
  validate_data_eq data

/-- Claim C8, witness: a record in alias spelling fails the first pass,
passes the second, and is updated in place; a canonical record passes
the first pass unchanged. -/
theorem validate_data_two_pass_witness :
    (validate_data aliasRec).1 = true ∧
    validate_data aliasRec = (true, dictUpdate aliasRec (normalizeRecordFields aliasRec)) ∧
    validate_data goodRec = (true, goodRec) :=
  ⟨(validate_data_two_pass aliasRec).1.mpr (Or.inr (by decide)),
    (validate_data_two_pass aliasRec).2.2.1 (by decide) (by decide),
    (validate_data_two_pass goodRec).2.1 (by decide)⟩

/-- Claim C9: the validator accepts the Python boolean True wherever
one of temperature, humidity, light, sound, motion or battery is
required to be numeric or integral: overwriting such a field of any
valid record with True still validates, because `isinstance` treats
bool as int and the coerced value 1 lies in every documented range. -/
theorem validator_accepts_bool_true (data : Record) (f : String)
    (hf : f ∈ boolCoercibleFields) (hv : validateFields data = true) :
    validateFields (alistInsert data f (Value.bool true)) = true :=
  bool_true_insert_valid data f hf hv

/-- Claim C9, witness: True is accepted for temperature and for motion
on a concrete valid record. -/
theorem validator_accepts_bool_true_witness :
    validateFields (alistInsert goodRec "temperature" (Value.bool true)) = true ∧
    validateFields (alistInsert goodRec "motion" (Value.bool true)) = true :=
  ⟨validator_accepts_bool_true goodRec "temperature" (by decide) (by decide),
    validator_accepts_bool_true goodRec "motion" (by decide) (by decide)⟩

/-- Claim C10: for every record, looking up any canonical field in the
normalized record yields the value of the last input key aliasing that
field (values copied untouched, last alias wins), and every key of the
normalized record is one of the canonical names owning an alias
list. -/
theorem normalize_canonical_keys_last_alias_wins (r : Record) (c : String) :
    alistLookup (normalizeRecordFields r) c = lastAliasValue r c ∧
    (∀ k ∈ alistKeys (normalizeRecordFields r), k ∈ mappedCanonicalFields) :=
  ⟨normalize_lookup r c, normalize_keys_canonical r⟩
